import Mathlib

/-!
# Maven POM manifests: `buildtools/maven/pom.go`

A shallow embedding of `Dependency.ID`, `ResolveManifestFromBuildTarget` and
`GraphFromTarget`, followed by theorems about the graph they build and the
errors they return.

Conventions of the embedding.

* Go strings are Lean `String`s.
* A Go map is an association list without repeated keys; a nil map or nil
  slice is `none`, an allocated one is `some _`.
* The file system and the XML reader are a `World`: what `os.Stat`,
  `filepath.Join` and `files.ReadXML` answer.  Every call made to `os.Stat`
  and to `files.ReadXML` is recorded, in order, in a list of `Call`s returned
  next to the result.
-/

namespace Maven

/-! ## Data model -/

/-- The `xml.Name` of the standard library: a namespace and a local name. -/
structure XMLName where
  Space : String
  Local : String
  deriving DecidableEq

/-- The `Parent` struct of `pom.go`. -/
structure Parent where
  ArtifactID : String
  GroupID : String
  Version : String
  deriving DecidableEq

/-- The `Dependency` struct of `pom.go`. -/
structure Dependency where
  GroupId : String
  ArtifactId : String
  Version : String
  Scope : String
  Failed : Bool
  deriving DecidableEq

/-- The `Manifest` struct of `pom.go`. -/
structure Manifest where
  Project : XMLName
  Parent : Parent
  Modules : List String
  ArtifactID : String
  GroupID : String
  Version : String
  Description : String
  Name : String
  URL : String
  Dependencies : List Dependency
  deriving DecidableEq

/-- Modelled from the spec: the type tag of a package identifier (`pkg.Type`),
whose declaration is in package `pkg`.  `pom.go` uses the single tag
`pkg.Maven`; every other tag is `other n`. -/
inductive PkgType where
  | Maven
  | other (n : Nat)
  deriving DecidableEq

/-- Modelled from the spec: the package identifier `pkg.ID` ("type tag + name +
version"), whose declaration is in package `pkg`.  These are the three fields
`pom.go` sets (`Type_` is the Go field `Type`); any further field of the Go
struct keeps its zero value in every identifier built here and so never
distinguishes two keys. -/
structure PkgID where
  Type_ : PkgType
  Name : String
  Revision : String
  deriving DecidableEq

/-- Modelled from the spec: the package record `pkg.Package`, whose declaration
is in package `pkg`.  `pom.go` sets its `ID` field and leaves every other field
at its zero value. -/
structure Package where
  ID : PkgID
  deriving DecidableEq

/-- A Go `map[pkg.ID]pkg.Package` that has been allocated: its entries, no key
twice. -/
abbrev PkgMap := List (PkgID × Package)

/-- Modelled from the spec: the graph record `graph.Deps`, whose declaration is
in package `graph`: the `Direct` slice and the `Transitive` map, each `none`
when nil.  The element type of `Direct` (`pkg.Import`) is a parameter. -/
structure Deps (Import : Type) where
  Direct : Option (List Import)
  Transitive : Option PkgMap
  deriving DecidableEq

/-- The zero value `graph.Deps{}`: a nil slice and a nil map. -/
def Deps.zero (Import : Type) : Deps Import :=
  { Direct := none, Transitive := none }

/-! ## Errors -/

/-- A Go `error` value: either built in `pom.go` by `errors.Errorf` with one
`%q` argument, or received from outside (`files.ReadXML`) with its message. -/
inductive GoError where
  | Errorf (format : String) (arg : String)
  | foreign (msg : String)
  deriving DecidableEq

/-- Expansion of a format that holds the verb `%q`: the first `%q` is replaced
by the quoted argument. -/
def sprintfQ (quoted : List Char) : List Char → List Char
  | [] => []
  | [c] => [c]
  | c :: d :: rest =>
    if c = '%' ∧ d = 'q' then quoted ++ rest else c :: sprintfQ quoted (d :: rest)

/-- The message `err.Error()`.  `quote` is `strconv.Quote`, which the verb `%q`
applies to its argument. -/
def GoError.Error (quote : String → String) : GoError → String
  | .Errorf format arg => ⟨sprintfQ (quote arg).data format.data⟩
  | .foreign msg => msg

/-- Whether `p` is an initial segment of `s`. -/
def startsWith : List Char → List Char → Bool
  | [], _ => true
  | _ :: _, [] => false
  | a :: p, b :: s => a == b && startsWith p s

/-- Whether `p` occurs in `s` as a contiguous segment. -/
def hasSegment (p : List Char) : List Char → Bool
  | [] => startsWith p []
  | b :: s => startsWith p (b :: s) || hasSegment p s

/-- Whether the message `msg` includes the text `part`. -/
def includes (msg part : String) : Bool :=
  hasSegment part.data msg.data

/-! ## The world outside `pom.go` -/

/-- What the file system and the XML reader answer.

* `Stat p` is `os.Stat(p)`: `none` when it returns an error, `some isDir`
  when it returns a `FileInfo` whose `IsDir()` is `isDir`.
* `Join a b` is `filepath.Join(a, b)`.
* `ReadXML p` is `files.ReadXML(&pom, p)` on a zero `Manifest`: the error it
  returns, or the manifest it has filled in. -/
structure World where
  Stat : String → Option Bool
  Join : String → String → String
  ReadXML : String → Except GoError Manifest

/-- A call that leaves `pom.go`. -/
inductive Call where
  | Stat (path : String)
  | ReadXML (path : String)
  deriving DecidableEq

/-- The `strings.Count(s, sep)` of the standard library for a separator of one
character: how many times it occurs in `s`. -/
def Count (s : String) (sep : Char) : Nat :=
  s.data.count sep

/-! ## Operations -/

/-- The method `Dependency.ID`: the dependency identifier `groupId:artifactId`. -/
def Dependency.ID (d : Dependency) : String :=
  d.GroupId ++ ":" ++ d.ArtifactId

/-- The function `ResolveManifestFromBuildTarget`.  The Go function returns `(nil, err)` or
`(&pom, nil)`, here `.error err` or `.ok pom`; the second component lists the
calls made. -/
def ResolveManifestFromBuildTarget (w : World) (buildTarget : String) :
    Except GoError Manifest × List Call :=
  match w.Stat buildTarget with
  | none =>
    if Count buildTarget ':' = 1 then
      (.error (.Errorf "cannot identify POM file for module %q" buildTarget),
        [.Stat buildTarget])
    else
      (.error (.Errorf "manifest file for %q cannot be read" buildTarget),
        [.Stat buildTarget])
  | some isDir =>
    let pomFile := if isDir then w.Join buildTarget "pom.xml" else buildTarget
    match w.ReadXML pomFile with
    | .error err => (.error err, [.Stat buildTarget, .ReadXML pomFile])
    | .ok pom => (.ok pom, [.Stat buildTarget, .ReadXML pomFile])

/-- Modelled from the spec: `depsListToImports`, defined elsewhere in package
`maven`: "`direct` is built by projecting each declared dependency into
an import reference, preserving source order and all duplicates".  The
projection of one dependency is the parameter `toImport`. -/
def depsListToImports {Import : Type} (toImport : Dependency → Import)
    (deps : List Dependency) : Option (List Import) :=
  some (deps.map toImport)

/-- The assignment `m[k] = v` on an allocated map: overwrite the entry of `k`
if there is one, add an entry otherwise. -/
def mapAssign (m : PkgMap) (k : PkgID) (v : Package) : PkgMap :=
  match m with
  | [] => [(k, v)]
  | (k', v') :: rest =>
    if k' = k then (k, v) :: rest else (k', v') :: mapAssign rest k v

/-- The index expression `m[k]` with its presence flag. -/
def mapLookup (m : PkgMap) (k : PkgID) : Option Package :=
  match m with
  | [] => none
  | (k', v') :: rest => if k' = k then some v' else mapLookup rest k

/-- The keys of an allocated map. -/
def mapKeys (m : PkgMap) : List PkgID :=
  m.map Prod.fst

/-- The package record that the loop of `GraphFromTarget` builds for `dep`. -/
def packOf (dep : Dependency) : Package :=
  { ID := { Type_ := PkgType.Maven, Name := dep.ID, Revision := dep.Version } }

/-- The loop of `GraphFromTarget` over `pom.Dependencies`, from the map `m`. -/
def fillTransitive (deps : List Dependency) (m : PkgMap) : PkgMap :=
  deps.foldl (fun m dep => mapAssign m (packOf dep).ID (packOf dep)) m

/-- The function `GraphFromTarget`: the pair `(graph.Deps, error)` it returns, and the calls
made. -/
def GraphFromTarget {Import : Type} (toImport : Dependency → Import) (w : World)
    (buildTarget : String) : (Deps Import × Option GoError) × List Call :=
  match ResolveManifestFromBuildTarget w buildTarget with
  | (.error err, calls) => ((Deps.zero Import, some err), calls)
  | (.ok pom, calls) =>
    (({ Direct := depsListToImports toImport pom.Dependencies
        Transitive := some (fillTransitive pom.Dependencies []) }, none), calls)

/-! ## Sample inputs -/

/-- A dependency with the given coordinate and scope. -/
def mkDep (g a v s : String) : Dependency :=
  { GroupId := g, ArtifactId := a, Version := v, Scope := s, Failed := false }

/-- A manifest that declares `deps` and nothing else. -/
def mkPom (deps : List Dependency) : Manifest :=
  { Project := ⟨"", "project"⟩, Parent := ⟨"", "", ""⟩, Modules := [],
    ArtifactID := "app", GroupID := "org.demo", Version := "0.1",
    Description := "", Name := "", URL := "", Dependencies := deps }

/-- A world with the directory `proj` and, in it, the file `proj/pom.xml`
that declares `deps`. -/
def projWorld (deps : List Dependency) : World :=
  { Stat := fun p =>
      if p = "proj" then some true else if p = "proj/pom.xml" then some false else none
    Join := fun a b => a ++ "/" ++ b
    ReadXML := fun p =>
      if p = "proj/pom.xml" then .ok (mkPom deps)
      else .error (.foreign ("open " ++ p ++ ": no such file or directory")) }

/-- The package identifier under which `GraphFromTarget` stores `dep`. -/
def keyOf (dep : Dependency) : PkgID :=
  { Type_ := PkgType.Maven, Name := dep.ID, Revision := dep.Version }

/-- The coordinate `(groupId, artifactId, version)` of a dependency. -/
def coordinate (dep : Dependency) : String × String × String :=
  (dep.GroupId, dep.ArtifactId, dep.Version)

/-- The identifier that a coordinate is stored under: `keyOf` as a function of
the coordinate. -/
def keyOfCoordinate (c : String × String × String) : PkgID :=
  { Type_ := PkgType.Maven, Name := c.1 ++ ":" ++ c.2.1, Revision := c.2.2 }

/-- The dependencies `com.a:x:1.0`, `com.b:y:2.0` and `com.a:x:1.0` again, under
three scopes. -/
def sampleDeps : List Dependency :=
  [mkDep "com.a" "x" "1.0" "", mkDep "com.b" "y" "2.0" "test",
    mkDep "com.a" "x" "1.0" "runtime"]

/-- A world where the file `pom.xml` exists and holds markup that is cut short:
the reader fails on it with the syntax error of `encoding/xml`. -/
def brokenWorld : World :=
  { Stat := fun p => if p = "pom.xml" then some false else none
    Join := fun a b => a ++ "/" ++ b
    ReadXML := fun _ => .error (.foreign "XML syntax error on line 1: unexpected EOF") }

/-! ## Map assignment -/

theorem mem_mapKeys_mapAssign (m : PkgMap) (k : PkgID) (v : Package) (k' : PkgID) :
    k' ∈ mapKeys (mapAssign m k v) ↔ k' = k ∨ k' ∈ mapKeys m := by
  induction m with
  | nil => simp [mapAssign, mapKeys]
  | cons e rest ih =>
    obtain ⟨a, b⟩ := e
    unfold mapAssign
    by_cases hk : a = k
    · subst hk
      simp [mapKeys]
    · simp only [hk, if_false]
      have ih' : k' ∈ mapKeys (mapAssign rest k v) ↔ k' = k ∨ k' ∈ mapKeys rest := ih
      simp only [mapKeys, List.map_cons, List.mem_cons] at ih' ⊢
      rw [ih']
      tauto

theorem nodup_mapKeys_mapAssign (m : PkgMap) (k : PkgID) (v : Package)
    (h : (mapKeys m).Nodup) : (mapKeys (mapAssign m k v)).Nodup := by
  induction m with
  | nil => simp [mapAssign, mapKeys]
  | cons e rest ih =>
    obtain ⟨a, b⟩ := e
    have hn : a ∉ mapKeys rest ∧ (mapKeys rest).Nodup := by
      simpa [mapKeys] using h
    unfold mapAssign
    by_cases hk : a = k
    · subst hk
      simpa [mapKeys] using h
    · simp only [hk, if_false]
      have h1 : a ∉ mapKeys (mapAssign rest k v) := by
        rw [mem_mapKeys_mapAssign]
        rintro (h2 | h2)
        · exact hk h2
        · exact hn.1 h2
      have h2 := ih hn.2
      simp only [mapKeys, List.map_cons, List.nodup_cons] at h1 h2 ⊢
      exact ⟨h1, h2⟩

theorem entries_mapAssign (m : PkgMap) (k : PkgID) (v : Package)
    (h : ∀ e ∈ m, e.2.ID = e.1) (hv : v.ID = k) :
    ∀ e ∈ mapAssign m k v, e.2.ID = e.1 := by
  induction m with
  | nil =>
    intro e he
    simp [mapAssign] at he
    subst he
    exact hv
  | cons e0 rest ih =>
    obtain ⟨a, b⟩ := e0
    intro e he
    unfold mapAssign at he
    by_cases hk : a = k
    · simp only [hk, if_true, List.mem_cons] at he
      rcases he with he | he
      · subst he
        exact hv
      · exact h e (List.mem_cons_of_mem _ he)
    · simp only [hk, if_false, List.mem_cons] at he
      rcases he with he | he
      · subst he
        exact h _ (List.mem_cons_self _ _)
      · exact ih (fun x hx => h x (List.mem_cons_of_mem _ hx)) e he

theorem mapLookup_some_mem (m : PkgMap) (k : PkgID) (p : Package)
    (h : mapLookup m k = some p) : (k, p) ∈ m := by
  induction m with
  | nil => simp [mapLookup] at h
  | cons e rest ih =>
    obtain ⟨a, b⟩ := e
    unfold mapLookup at h
    by_cases hk : a = k
    · simp only [hk, if_true, Option.some.injEq] at h
      subst hk
      subst h
      exact List.mem_cons_self _ _
    · simp only [hk, if_false] at h
      exact List.mem_cons_of_mem _ (ih h)

theorem mapLookup_isSome (m : PkgMap) (k : PkgID) :
    (mapLookup m k).isSome = true ↔ k ∈ mapKeys m := by
  induction m with
  | nil => simp [mapLookup, mapKeys]
  | cons e rest ih =>
    obtain ⟨a, b⟩ := e
    unfold mapLookup
    by_cases hk : a = k
    · simp [hk, mapKeys]
    · simp only [hk, if_false]
      rw [ih]
      simp only [mapKeys, List.map_cons, List.mem_cons]
      constructor
      · intro h
        exact Or.inr h
      · rintro (h | h)
        · exact absurd h.symm hk
        · exact h

/-! ## The loop of `GraphFromTarget` -/

theorem mem_mapKeys_fillTransitive (deps : List Dependency) (m : PkgMap) (k : PkgID) :
    k ∈ mapKeys (fillTransitive deps m) ↔ k ∈ mapKeys m ∨ ∃ d ∈ deps, k = keyOf d := by
  induction deps generalizing m with
  | nil => simp [fillTransitive]
  | cons d rest ih =>
    have step : fillTransitive (d :: rest) m
        = fillTransitive rest (mapAssign m (packOf d).ID (packOf d)) := rfl
    rw [step, ih, mem_mapKeys_mapAssign]
    have hk : (packOf d).ID = keyOf d := rfl
    rw [hk]
    simp only [List.mem_cons, exists_eq_or_imp]
    tauto

theorem nodup_mapKeys_fillTransitive (deps : List Dependency) (m : PkgMap)
    (h : (mapKeys m).Nodup) : (mapKeys (fillTransitive deps m)).Nodup := by
  induction deps generalizing m with
  | nil => simpa [fillTransitive] using h
  | cons d rest ih =>
    have step : fillTransitive (d :: rest) m
        = fillTransitive rest (mapAssign m (packOf d).ID (packOf d)) := rfl
    rw [step]
    exact ih _ (nodup_mapKeys_mapAssign m _ _ h)

theorem entries_fillTransitive (deps : List Dependency) (m : PkgMap)
    (h : ∀ e ∈ m, e.2.ID = e.1) : ∀ e ∈ fillTransitive deps m, e.2.ID = e.1 := by
  induction deps generalizing m with
  | nil => simpa [fillTransitive] using h
  | cons d rest ih =>
    have step : fillTransitive (d :: rest) m
        = fillTransitive rest (mapAssign m (packOf d).ID (packOf d)) := rfl
    rw [step]
    exact ih _ (entries_mapAssign m _ _ h rfl)

/-- The number of entries of the map built from the empty map is the number of
distinct keys among the dependencies. -/
theorem length_fillTransitive (deps : List Dependency) :
    (fillTransitive deps []).length = (deps.map keyOf).toFinset.card := by
  have hn : (mapKeys (fillTransitive deps [])).Nodup :=
    nodup_mapKeys_fillTransitive deps [] (by simp [mapKeys])
  have hs : (mapKeys (fillTransitive deps [])).toFinset = (deps.map keyOf).toFinset := by
    ext k
    simp only [List.mem_toFinset, mem_mapKeys_fillTransitive, List.mem_map]
    constructor
    · rintro (h | ⟨d, hd, rfl⟩)
      · simp [mapKeys] at h
      · exact ⟨d, hd, rfl⟩
    · rintro ⟨d, hd, rfl⟩
      exact Or.inr ⟨d, hd, rfl⟩
  rw [← hs, List.toFinset_card_of_nodup hn]
  simp [mapKeys]

/-- What `GraphFromTarget` returns once the manifest has been resolved. -/
theorem graph_of_ok {Import : Type} (toImport : Dependency → Import) (w : World)
    (buildTarget : String) (pom : Manifest)
    (h : (ResolveManifestFromBuildTarget w buildTarget).1 = .ok pom) :
    (GraphFromTarget toImport w buildTarget).1
      = ({ Direct := depsListToImports toImport pom.Dependencies
           Transitive := some (fillTransitive pom.Dependencies []) }, none) := by
  unfold GraphFromTarget
  rcases hr : ResolveManifestFromBuildTarget w buildTarget with ⟨r, calls⟩
  rw [hr] at h
  simp only at h
  subst h
  rfl

/-- What `GraphFromTarget` returns when the resolver fails. -/
theorem graph_of_error {Import : Type} (toImport : Dependency → Import) (w : World)
    (buildTarget : String) (err : GoError)
    (h : (ResolveManifestFromBuildTarget w buildTarget).1 = .error err) :
    (GraphFromTarget toImport w buildTarget).1 = (Deps.zero Import, some err) := by
  unfold GraphFromTarget
  rcases hr : ResolveManifestFromBuildTarget w buildTarget with ⟨r, calls⟩
  rw [hr] at h
  simp only at h
  subst h
  rfl

/-! ## The graph -/

/-- C1: when the manifest resolves to `pom`, the `Transitive` map returned by
`GraphFromTarget` is allocated, holds no key twice, has as its keys exactly the
identifiers `{Maven, d.ID(), d.Version}` of the declared dependencies `d`
(whatever their scope and `Failed` flag), and the package stored under a key
`k` has `ID` equal to `k`. -/
theorem transitive_key_set {Import : Type} (toImport : Dependency → Import) (w : World)
    (buildTarget : String) (pom : Manifest)
    (h : (ResolveManifestFromBuildTarget w buildTarget).1 = .ok pom) :
    ∃ m : PkgMap, (GraphFromTarget toImport w buildTarget).1.1.Transitive = some m
      ∧ (GraphFromTarget toImport w buildTarget).1.2 = none
      ∧ (mapKeys m).Nodup
      ∧ (∀ k : PkgID, k ∈ mapKeys m ↔
          ∃ d ∈ pom.Dependencies,
            k = { Type_ := PkgType.Maven, Name := d.ID, Revision := d.Version })
      ∧ (∀ k : PkgID, (mapLookup m k).isSome = true ↔ k ∈ mapKeys m)
      ∧ (∀ (k : PkgID) (p : Package), mapLookup m k = some p → p.ID = k) := by
  refine ⟨fillTransitive pom.Dependencies [], ?_, ?_, ?_, ?_, ?_, ?_⟩
  · rw [graph_of_ok toImport w buildTarget pom h]
  · rw [graph_of_ok toImport w buildTarget pom h]
  · exact nodup_mapKeys_fillTransitive _ [] (by simp [mapKeys])
  · intro k
    rw [mem_mapKeys_fillTransitive]
    constructor
    · rintro (hk | ⟨d, hd, rfl⟩)
      · simp [mapKeys] at hk
      · exact ⟨d, hd, rfl⟩
    · rintro ⟨d, hd, rfl⟩
      exact Or.inr ⟨d, hd, rfl⟩
  · intro k
    exact mapLookup_isSome _ k
  · intro k p hp
    exact entries_fillTransitive pom.Dependencies [] (by simp) (k, p)
      (mapLookup_some_mem _ k p hp)

/-- C2: when the manifest resolves to `pom`, the `Direct` slice returned by
`GraphFromTarget` is the declared dependencies projected one by one: it has
the length of `pom.Dependencies` and its `i`-th element is the projection of
the `i`-th declared dependency, duplicates included. -/
theorem direct_in_declaration_order {Import : Type} (toImport : Dependency → Import)
    (w : World) (buildTarget : String) (pom : Manifest)
    (h : (ResolveManifestFromBuildTarget w buildTarget).1 = .ok pom) :
    ∃ l : List Import, (GraphFromTarget toImport w buildTarget).1.1.Direct = some l
      ∧ l.length = pom.Dependencies.length
      ∧ (∀ i : Nat, l[i]? = (pom.Dependencies[i]?).map toImport)
      ∧ l = pom.Dependencies.map toImport := by
  refine ⟨pom.Dependencies.map toImport, ?_, ?_, ?_, rfl⟩
  · rw [graph_of_ok toImport w buildTarget pom h]
    rfl
  · simp
  · intro i
    simp

/-- C3: when the manifest resolves to `pom`, two declared dependencies with the
same `ID()` and the same version have one key, which the `Transitive` map holds
once; two with different versions have two different keys, both in the map.  A
manifest that declares one coordinate twice and nothing else gives a map of one
entry; one that declares `com.a:x:1.0` and `com.b:y:2.0` gives a map of two. -/
theorem transitive_collapse_and_coexist {Import : Type} (toImport : Dependency → Import)
    (w : World) (buildTarget : String) (pom : Manifest)
    (h : (ResolveManifestFromBuildTarget w buildTarget).1 = .ok pom) :
    ∃ m : PkgMap, (GraphFromTarget toImport w buildTarget).1.1.Transitive = some m
      ∧ (∀ d1 ∈ pom.Dependencies, ∀ d2 ∈ pom.Dependencies,
          d1.ID = d2.ID → d1.Version = d2.Version →
            keyOf d1 = keyOf d2 ∧ (mapKeys m).count (keyOf d1) = 1)
      ∧ (∀ d1 ∈ pom.Dependencies, ∀ d2 ∈ pom.Dependencies,
          d1.Version ≠ d2.Version →
            keyOf d1 ≠ keyOf d2 ∧ keyOf d1 ∈ mapKeys m ∧ keyOf d2 ∈ mapKeys m)
      ∧ (∀ d1 d2 : Dependency, pom.Dependencies = [d1, d2] →
          d1.GroupId = d2.GroupId → d1.ArtifactId = d2.ArtifactId →
          d1.Version = d2.Version → m.length = 1)
      ∧ (∀ d1 d2 : Dependency, pom.Dependencies = [d1, d2] →
          d1.GroupId = "com.a" → d1.ArtifactId = "x" → d1.Version = "1.0" →
          d2.GroupId = "com.b" → d2.ArtifactId = "y" → d2.Version = "2.0" →
          m.length = 2) := by
  have hn : (mapKeys (fillTransitive pom.Dependencies [])).Nodup :=
    nodup_mapKeys_fillTransitive _ [] (by simp [mapKeys])
  have hmem : ∀ d ∈ pom.Dependencies, keyOf d ∈ mapKeys (fillTransitive pom.Dependencies []) := by
    intro d hd
    rw [mem_mapKeys_fillTransitive]
    exact Or.inr ⟨d, hd, rfl⟩
  refine ⟨fillTransitive pom.Dependencies [], ?_, ?_, ?_, ?_, ?_⟩
  · rw [graph_of_ok toImport w buildTarget pom h]
  · intro d1 h1 d2 _ hid hv
    refine ⟨?_, List.count_eq_one_of_mem hn (hmem d1 h1)⟩
    simp [keyOf, hid, hv]
  · intro d1 h1 d2 h2 hv
    refine ⟨?_, hmem d1 h1, hmem d2 h2⟩
    intro hk
    exact hv (congrArg PkgID.Revision hk)
  · intro d1 d2 hd hg ha hv
    rw [length_fillTransitive, hd]
    have hk : keyOf d1 = keyOf d2 := by simp [keyOf, Dependency.ID, hg, ha, hv]
    simp [hk]
  · intro d1 d2 hd g1 a1 v1 g2 a2 v2
    rw [length_fillTransitive, hd]
    have hk : keyOf d1 ≠ keyOf d2 := by
      intro hk
      have hr := congrArg PkgID.Revision hk
      simp only [keyOf, v1, v2] at hr
      exact absurd hr (by decide)
    simp only [List.map_cons, List.map_nil, List.toFinset_cons, List.toFinset_nil]
    rw [Finset.card_insert_of_not_mem]
    · simp
    · simpa using hk

/-- C4: `d.ID()` is `d.GroupId ++ ":" ++ d.ArtifactId`; it does not change with
the version, the scope or the `Failed` flag; and for `com.example` and `lib` it
is the string `com.example:lib`. -/
theorem ID_is_group_colon_artifact :
    (∀ d : Dependency, d.ID = d.GroupId ++ ":" ++ d.ArtifactId)
      ∧ (∀ (g a v s v' s' : String) (f f' : Bool),
          (Dependency.mk g a v s f).ID = (Dependency.mk g a v' s' f').ID)
      ∧ (∀ (v s : String) (f : Bool),
          (Dependency.mk "com.example" "lib" v s f).ID = "com.example:lib") := by
  refine ⟨fun _ => rfl, ?_, ?_⟩
  · intros
    rfl
  · intro v s f
    show ("com.example" ++ ":" ++ "lib" : String) = "com.example:lib"
    decide

/-! ## The resolver -/

/-- C5: when `os.Stat` fails on a target that holds exactly one colon, the
resolver returns no manifest and the error built from the format
`cannot identify POM file for module %q` and the target; its message is not the
one of the generic diagnosis; the only call made is the `os.Stat`, so
`files.ReadXML` is never called. -/
theorem one_colon_gives_module_error (w : World) (buildTarget : String)
    (hstat : w.Stat buildTarget = none) (hcolon : Count buildTarget ':' = 1) :
    ResolveManifestFromBuildTarget w buildTarget
        = (.error (.Errorf "cannot identify POM file for module %q" buildTarget),
            [.Stat buildTarget])
      ∧ (∀ quote : String → String,
          (GoError.Errorf "cannot identify POM file for module %q" buildTarget).Error quote
            = "cannot identify POM file for module " ++ quote buildTarget)
      ∧ (∀ quote : String → String,
          (GoError.Errorf "cannot identify POM file for module %q" buildTarget).Error quote
            ≠ "manifest file for " ++ quote buildTarget ++ " cannot be read")
      ∧ (∀ path : String,
          Call.ReadXML path ∉ (ResolveManifestFromBuildTarget w buildTarget).2) := by
  have hr : ResolveManifestFromBuildTarget w buildTarget
      = (.error (.Errorf "cannot identify POM file for module %q" buildTarget),
          [.Stat buildTarget]) := by
    simp [ResolveManifestFromBuildTarget, hstat, hcolon]
  have hm : ∀ quote : String → String,
      (GoError.Errorf "cannot identify POM file for module %q" buildTarget).Error quote
        = "cannot identify POM file for module " ++ quote buildTarget := by
    intro quote
    apply String.ext
    simp [GoError.Error, sprintfQ]
  refine ⟨hr, hm, ?_, ?_⟩
  · intro quote heq
    rw [hm] at heq
    have hd := congrArg String.data heq
    simp at hd
  · intro path hp
    rw [hr] at hp
    simp at hp

/-- C6: when `os.Stat` fails on a target whose number of colons is not one, the
resolver returns no manifest and the error built from the format
`manifest file for %q cannot be read` and the target; its message is not the
one of the module diagnosis; the only call made is the `os.Stat`. -/
theorem other_colon_count_gives_generic_error (w : World) (buildTarget : String)
    (hstat : w.Stat buildTarget = none) (hcolon : Count buildTarget ':' ≠ 1) :
    ResolveManifestFromBuildTarget w buildTarget
        = (.error (.Errorf "manifest file for %q cannot be read" buildTarget),
            [.Stat buildTarget])
      ∧ (∀ quote : String → String,
          (GoError.Errorf "manifest file for %q cannot be read" buildTarget).Error quote
            = "manifest file for " ++ quote buildTarget ++ " cannot be read")
      ∧ (∀ quote : String → String,
          (GoError.Errorf "manifest file for %q cannot be read" buildTarget).Error quote
            ≠ "cannot identify POM file for module " ++ quote buildTarget)
      ∧ (∀ path : String,
          Call.ReadXML path ∉ (ResolveManifestFromBuildTarget w buildTarget).2) := by
  have hr : ResolveManifestFromBuildTarget w buildTarget
      = (.error (.Errorf "manifest file for %q cannot be read" buildTarget),
          [.Stat buildTarget]) := by
    simp [ResolveManifestFromBuildTarget, hstat, hcolon]
  have hm : ∀ quote : String → String,
      (GoError.Errorf "manifest file for %q cannot be read" buildTarget).Error quote
        = "manifest file for " ++ quote buildTarget ++ " cannot be read" := by
    intro quote
    apply String.ext
    simp [GoError.Error, sprintfQ]
  refine ⟨hr, hm, ?_, ?_⟩
  · intro quote heq
    rw [hm] at heq
    have hd := congrArg String.data heq
    simp at hd
  · intro path hp
    rw [hr] at hp
    simp at hp

/-- What the resolver does with a target that `os.Stat` finds: it reads the
manifest at the target itself, or at `pom.xml` in it when it is a directory,
and returns what `files.ReadXML` gives. -/
theorem resolve_of_stat (w : World) (buildTarget : String) (isDir : Bool)
    (hstat : w.Stat buildTarget = some isDir) :
    ResolveManifestFromBuildTarget w buildTarget
      = (w.ReadXML (if isDir then w.Join buildTarget "pom.xml" else buildTarget),
          [.Stat buildTarget,
            .ReadXML (if isDir then w.Join buildTarget "pom.xml" else buildTarget)]) := by
  simp only [ResolveManifestFromBuildTarget, hstat]
  cases w.ReadXML (if isDir then w.Join buildTarget "pom.xml" else buildTarget) <;> rfl

/-- C7: for a directory `d` that holds a file `pom.xml`, resolving `d` and
resolving `filepath.Join(d, "pom.xml")` pass the same path to `files.ReadXML`,
return the same manifest or error, and `GraphFromTarget` returns the same graph
and error for both.  Any existing directory is read at `Join(target, "pom.xml")`
and any existing non-directory at the target itself. -/
theorem directory_and_file_agree {Import : Type} (toImport : Dependency → Import)
    (w : World) (d : String) (hdir : w.Stat d = some true)
    (hfile : w.Stat (w.Join d "pom.xml") = some false) :
    (ResolveManifestFromBuildTarget w d).2
        = [.Stat d, .ReadXML (w.Join d "pom.xml")]
      ∧ (ResolveManifestFromBuildTarget w (w.Join d "pom.xml")).2
        = [.Stat (w.Join d "pom.xml"), .ReadXML (w.Join d "pom.xml")]
      ∧ (ResolveManifestFromBuildTarget w d).1
        = (ResolveManifestFromBuildTarget w (w.Join d "pom.xml")).1
      ∧ (GraphFromTarget toImport w d).1
        = (GraphFromTarget toImport w (w.Join d "pom.xml")).1
      ∧ (∀ t : String, w.Stat t = some true →
          ResolveManifestFromBuildTarget w t
            = (w.ReadXML (w.Join t "pom.xml"), [.Stat t, .ReadXML (w.Join t "pom.xml")]))
      ∧ (∀ t : String, w.Stat t = some false →
          ResolveManifestFromBuildTarget w t = (w.ReadXML t, [.Stat t, .ReadXML t])) := by
  have h1 := resolve_of_stat w d true hdir
  have h2 := resolve_of_stat w (w.Join d "pom.xml") false hfile
  simp only [if_true, Bool.false_eq_true, if_false] at h1 h2
  refine ⟨by rw [h1], by rw [h2], by rw [h1, h2], ?_, ?_, ?_⟩
  · unfold GraphFromTarget
    rw [h1, h2]
    cases w.ReadXML (w.Join d "pom.xml") <;> rfl
  · intro t ht
    simpa using resolve_of_stat w t true ht
  · intro t ht
    simpa using resolve_of_stat w t false ht

/-- C8, as amended: when `os.Stat` finds the target and `files.ReadXML` fails
on the manifest path with the error `err`, the resolver returns no manifest and
`err` itself, with nothing added to it, and `GraphFromTarget` returns `err` with
the zero graph. -/
theorem read_error_is_returned_unchanged {Import : Type} (toImport : Dependency → Import)
    (w : World) (buildTarget : String) (isDir : Bool) (err : GoError)
    (hstat : w.Stat buildTarget = some isDir)
    (hread : w.ReadXML (if isDir then w.Join buildTarget "pom.xml" else buildTarget)
      = .error err) :
    (ResolveManifestFromBuildTarget w buildTarget).1 = .error err
      ∧ (ResolveManifestFromBuildTarget w buildTarget).2
        = [.Stat buildTarget,
            .ReadXML (if isDir then w.Join buildTarget "pom.xml" else buildTarget)]
      ∧ (GraphFromTarget toImport w buildTarget).1 = (Deps.zero Import, some err) := by
  have h1 := resolve_of_stat w buildTarget isDir hstat
  rw [hread] at h1
  have h2 : (ResolveManifestFromBuildTarget w buildTarget).1 = .error err := by rw [h1]
  refine ⟨h2, ?_, graph_of_error toImport w buildTarget err h2⟩
  rw [h1]

/-- C8, as stated, fails: in `brokenWorld` the file `pom.xml` exists, the reader
fails on it with a syntax error, and the error that the resolver returns has a
message that does not include the path `pom.xml`. -/
theorem read_error_message_without_path :
    brokenWorld.Stat "pom.xml" = some false
      ∧ (ResolveManifestFromBuildTarget brokenWorld "pom.xml").2
        = [.Stat "pom.xml", .ReadXML "pom.xml"]
      ∧ (ResolveManifestFromBuildTarget brokenWorld "pom.xml").1
        = .error (.foreign "XML syntax error on line 1: unexpected EOF")
      ∧ (∀ quote : String → String,
          includes
            ((GoError.foreign "XML syntax error on line 1: unexpected EOF").Error quote)
            "pom.xml" = false) := by
  refine ⟨by decide, by decide, rfl, ?_⟩
  intro quote
  show includes "XML syntax error on line 1: unexpected EOF" "pom.xml" = false
  decide

/-- C9: `GraphFromTarget` returns an error exactly when the resolver does.  When
the resolver fails with `err`, it returns `err` and the zero graph (nil `Direct`,
nil `Transitive`); when the resolver succeeds, it returns a nil error and a graph
whose `Transitive` map is allocated.  The calls made are those of the resolver. -/
theorem graph_fails_iff_resolver_fails {Import : Type} (toImport : Dependency → Import)
    (w : World) (buildTarget : String) :
    ((GraphFromTarget toImport w buildTarget).1.2 ≠ none ↔
        ∃ err, (ResolveManifestFromBuildTarget w buildTarget).1 = .error err)
      ∧ (∀ err, (ResolveManifestFromBuildTarget w buildTarget).1 = .error err →
          (GraphFromTarget toImport w buildTarget).1.2 = some err
            ∧ (GraphFromTarget toImport w buildTarget).1.1.Direct = none
            ∧ (GraphFromTarget toImport w buildTarget).1.1.Transitive = none)
      ∧ (∀ pom, (ResolveManifestFromBuildTarget w buildTarget).1 = .ok pom →
          (GraphFromTarget toImport w buildTarget).1.2 = none
            ∧ (GraphFromTarget toImport w buildTarget).1.1.Transitive ≠ none)
      ∧ (GraphFromTarget toImport w buildTarget).2
        = (ResolveManifestFromBuildTarget w buildTarget).2 := by
  refine ⟨?_, ?_, ?_, ?_⟩
  · rcases hr : (ResolveManifestFromBuildTarget w buildTarget).1 with err | pom
    · rw [graph_of_error toImport w buildTarget err hr]
      simp
    · rw [graph_of_ok toImport w buildTarget pom hr]
      simp
  · intro err hr
    rw [graph_of_error toImport w buildTarget err hr]
    exact ⟨rfl, rfl, rfl⟩
  · intro pom hr
    rw [graph_of_ok toImport w buildTarget pom hr]
    simp
  · unfold GraphFromTarget
    rcases ResolveManifestFromBuildTarget w buildTarget with ⟨r, calls⟩
    cases r <;> rfl

/-! ## `ID()` as an identity -/

/-- Two texts cut at a character that neither head holds have equal heads and
equal tails. -/
theorem cut_at_first (c : Char) (l1 l2 r1 r2 : List Char) (h1 : c ∉ l1) (h2 : c ∉ l2)
    (h : l1 ++ c :: r1 = l2 ++ c :: r2) : l1 = l2 ∧ r1 = r2 := by
  induction l1 generalizing l2 with
  | nil =>
    cases l2 with
    | nil => simpa using h
    | cons b l2 =>
      simp only [List.nil_append, List.cons_append, List.cons.injEq] at h
      simp only [List.mem_cons, not_or] at h2
      exact absurd h.1 h2.1
  | cons a l1 ih =>
    cases l2 with
    | nil =>
      simp only [List.nil_append, List.cons_append, List.cons.injEq] at h
      simp only [List.mem_cons, not_or] at h1
      exact absurd h.1.symm h1.1
    | cons b l2 =>
      simp only [List.cons_append, List.cons.injEq] at h
      simp only [List.mem_cons, not_or] at h1 h2
      obtain ⟨e1, e2⟩ := ih l2 h1.2 h2.2 h.2
      exact ⟨by rw [h.1, e1], e2⟩

/-- With no colon in either `GroupId`, equal `ID()`s come from equal `GroupId`s
and equal `ArtifactId`s. -/
theorem ID_inj (g1 a1 g2 a2 : String) (h1 : Count g1 ':' = 0) (h2 : Count g2 ':' = 0)
    (h : g1 ++ ":" ++ a1 = g2 ++ ":" ++ a2) : g1 = g2 ∧ a1 = a2 := by
  have hd := congrArg String.data h
  simp only [String.data_append] at hd
  simp only [List.append_assoc, List.singleton_append] at hd
  have n1 : ':' ∉ g1.data := List.count_eq_zero.mp h1
  have n2 : ':' ∉ g2.data := List.count_eq_zero.mp h2
  obtain ⟨e1, e2⟩ := cut_at_first ':' _ _ _ _ n1 n2 hd
  exact ⟨String.ext e1, String.ext e2⟩

/-- C10: for two dependencies whose `GroupId`s hold no colon, equal `ID()`s mean
equal `GroupId`s and equal `ArtifactId`s; and when the manifest resolves to a
`pom` where no declared `GroupId` holds a colon, the `Transitive` map has as
many entries as there are distinct coordinates `(groupId, artifactId, version)`
among the declared dependencies. -/
theorem ID_identifies_pair_without_colon :
    (∀ d1 d2 : Dependency, Count d1.GroupId ':' = 0 → Count d2.GroupId ':' = 0 →
        d1.ID = d2.ID → d1.GroupId = d2.GroupId ∧ d1.ArtifactId = d2.ArtifactId)
      ∧ (∀ (Import : Type) (toImport : Dependency → Import) (w : World)
          (buildTarget : String) (pom : Manifest),
          (ResolveManifestFromBuildTarget w buildTarget).1 = .ok pom →
          (∀ d ∈ pom.Dependencies, Count d.GroupId ':' = 0) →
          ∃ m : PkgMap, (GraphFromTarget toImport w buildTarget).1.1.Transitive = some m
            ∧ m.length = ((pom.Dependencies.map coordinate).dedup).length) := by
  constructor
  · intro d1 d2 h1 h2 h
    exact ID_inj _ _ _ _ h1 h2 h
  · intro Import toImport w buildTarget pom hr hc
    refine ⟨fillTransitive pom.Dependencies [], ?_, ?_⟩
    · rw [graph_of_ok toImport w buildTarget pom hr]
    · rw [length_fillTransitive, ← List.card_toFinset]
      have hk : pom.Dependencies.map keyOf
          = (pom.Dependencies.map coordinate).map keyOfCoordinate := by
        rw [List.map_map]
        rfl
      have himg : ((pom.Dependencies.map coordinate).map keyOfCoordinate).toFinset
          = (pom.Dependencies.map coordinate).toFinset.image keyOfCoordinate := by
        ext k
        simp only [List.mem_toFinset, List.mem_map, Finset.mem_image]
      rw [hk, himg]
      apply Finset.card_image_of_injOn
      intro x hx y hy hxy
      simp only [Finset.mem_coe, List.mem_toFinset, List.mem_map] at hx hy
      obtain ⟨dx, hdx, rfl⟩ := hx
      obtain ⟨dy, hdy, rfl⟩ := hy
      have hn := congrArg PkgID.Name hxy
      have hv := congrArg PkgID.Revision hxy
      simp only [keyOfCoordinate, coordinate] at hn hv
      obtain ⟨e1, e2⟩ := ID_inj _ _ _ _ (hc dx hdx) (hc dy hdy) hn
      simp only [coordinate, e1, e2, hv]

/-! ## The theorems at sample inputs -/

/-- The key set of the `Transitive` map for the directory `proj`, whose manifest
declares `sampleDeps`. -/
theorem transitive_key_set_witness :
    (ResolveManifestFromBuildTarget (projWorld sampleDeps) "proj").1
        = .ok (mkPom sampleDeps)
      ∧ ∃ m : PkgMap,
          (GraphFromTarget keyOf (projWorld sampleDeps) "proj").1.1.Transitive = some m
          ∧ (GraphFromTarget keyOf (projWorld sampleDeps) "proj").1.2 = none
          ∧ (mapKeys m).Nodup
          ∧ (∀ k : PkgID, k ∈ mapKeys m ↔
              ∃ d ∈ (mkPom sampleDeps).Dependencies,
                k = { Type_ := PkgType.Maven, Name := d.ID, Revision := d.Version })
          ∧ (∀ k : PkgID, (mapLookup m k).isSome = true ↔ k ∈ mapKeys m)
          ∧ (∀ (k : PkgID) (p : Package), mapLookup m k = some p → p.ID = k) :=
  ⟨rfl, transitive_key_set keyOf (projWorld sampleDeps) "proj" (mkPom sampleDeps) rfl⟩

/-- The `Direct` slice for the directory `proj`, whose manifest declares
`sampleDeps`: three entries, the first coordinate twice. -/
theorem direct_in_declaration_order_witness :
    (ResolveManifestFromBuildTarget (projWorld sampleDeps) "proj").1
        = .ok (mkPom sampleDeps)
      ∧ ∃ l : List PkgID,
          (GraphFromTarget keyOf (projWorld sampleDeps) "proj").1.1.Direct = some l
          ∧ l.length = (mkPom sampleDeps).Dependencies.length
          ∧ (∀ i : Nat, l[i]? = ((mkPom sampleDeps).Dependencies[i]?).map keyOf)
          ∧ l = (mkPom sampleDeps).Dependencies.map keyOf :=
  ⟨rfl, direct_in_declaration_order keyOf (projWorld sampleDeps) "proj"
    (mkPom sampleDeps) rfl⟩

/-- Collapsing and coexisting entries for the directory `proj`, whose manifest
declares `sampleDeps`. -/
theorem transitive_collapse_and_coexist_witness :
    (ResolveManifestFromBuildTarget (projWorld sampleDeps) "proj").1
        = .ok (mkPom sampleDeps)
      ∧ ∃ m : PkgMap,
          (GraphFromTarget keyOf (projWorld sampleDeps) "proj").1.1.Transitive = some m
          ∧ (∀ d1 ∈ (mkPom sampleDeps).Dependencies, ∀ d2 ∈ (mkPom sampleDeps).Dependencies,
              d1.ID = d2.ID → d1.Version = d2.Version →
                keyOf d1 = keyOf d2 ∧ (mapKeys m).count (keyOf d1) = 1)
          ∧ (∀ d1 ∈ (mkPom sampleDeps).Dependencies, ∀ d2 ∈ (mkPom sampleDeps).Dependencies,
              d1.Version ≠ d2.Version →
                keyOf d1 ≠ keyOf d2 ∧ keyOf d1 ∈ mapKeys m ∧ keyOf d2 ∈ mapKeys m)
          ∧ (∀ d1 d2 : Dependency, (mkPom sampleDeps).Dependencies = [d1, d2] →
              d1.GroupId = d2.GroupId → d1.ArtifactId = d2.ArtifactId →
              d1.Version = d2.Version → m.length = 1)
          ∧ (∀ d1 d2 : Dependency, (mkPom sampleDeps).Dependencies = [d1, d2] →
              d1.GroupId = "com.a" → d1.ArtifactId = "x" → d1.Version = "1.0" →
              d2.GroupId = "com.b" → d2.ArtifactId = "y" → d2.Version = "2.0" →
              m.length = 2) :=
  ⟨rfl, transitive_collapse_and_coexist keyOf (projWorld sampleDeps) "proj"
    (mkPom sampleDeps) rfl⟩

/-- The module diagnosis for the module identifier `com.a:x`, which is no path
of the world. -/
theorem one_colon_gives_module_error_witness :
    (projWorld []).Stat "com.a:x" = none ∧ Count "com.a:x" ':' = 1
      ∧ ResolveManifestFromBuildTarget (projWorld []) "com.a:x"
        = (.error (.Errorf "cannot identify POM file for module %q" "com.a:x"),
            [.Stat "com.a:x"])
      ∧ (∀ quote : String → String,
          (GoError.Errorf "cannot identify POM file for module %q" "com.a:x").Error quote
            = "cannot identify POM file for module " ++ quote "com.a:x")
      ∧ (∀ quote : String → String,
          (GoError.Errorf "cannot identify POM file for module %q" "com.a:x").Error quote
            ≠ "manifest file for " ++ quote "com.a:x" ++ " cannot be read")
      ∧ (∀ path : String,
          Call.ReadXML path ∉ (ResolveManifestFromBuildTarget (projWorld []) "com.a:x").2) :=
  ⟨by decide, by decide,
    one_colon_gives_module_error (projWorld []) "com.a:x" (by decide) (by decide)⟩

/-- The generic diagnosis for `com.a:x:1.0`, which holds two colons and is no
path of the world. -/
theorem other_colon_count_gives_generic_error_witness :
    (projWorld []).Stat "com.a:x:1.0" = none ∧ Count "com.a:x:1.0" ':' ≠ 1
      ∧ ResolveManifestFromBuildTarget (projWorld []) "com.a:x:1.0"
        = (.error (.Errorf "manifest file for %q cannot be read" "com.a:x:1.0"),
            [.Stat "com.a:x:1.0"])
      ∧ (∀ quote : String → String,
          (GoError.Errorf "manifest file for %q cannot be read" "com.a:x:1.0").Error quote
            = "manifest file for " ++ quote "com.a:x:1.0" ++ " cannot be read")
      ∧ (∀ quote : String → String,
          (GoError.Errorf "manifest file for %q cannot be read" "com.a:x:1.0").Error quote
            ≠ "cannot identify POM file for module " ++ quote "com.a:x:1.0")
      ∧ (∀ path : String,
          Call.ReadXML path
            ∉ (ResolveManifestFromBuildTarget (projWorld []) "com.a:x:1.0").2) :=
  ⟨by decide, by decide,
    other_colon_count_gives_generic_error (projWorld []) "com.a:x:1.0" (by decide)
      (by decide)⟩

/-- The directory `proj` and its file `proj/pom.xml` resolve alike. -/
theorem directory_and_file_agree_witness :
    (projWorld sampleDeps).Stat "proj" = some true
      ∧ (projWorld sampleDeps).Stat ((projWorld sampleDeps).Join "proj" "pom.xml")
        = some false
      ∧ (ResolveManifestFromBuildTarget (projWorld sampleDeps) "proj").1
        = (ResolveManifestFromBuildTarget (projWorld sampleDeps)
            ((projWorld sampleDeps).Join "proj" "pom.xml")).1
      ∧ (GraphFromTarget keyOf (projWorld sampleDeps) "proj").1
        = (GraphFromTarget keyOf (projWorld sampleDeps)
            ((projWorld sampleDeps).Join "proj" "pom.xml")).1 :=
  ⟨by decide, by decide,
    (directory_and_file_agree keyOf (projWorld sampleDeps) "proj" (by decide)
      (by decide)).2.2.1,
    (directory_and_file_agree keyOf (projWorld sampleDeps) "proj" (by decide)
      (by decide)).2.2.2.1⟩

/-- The reader's error for the file `pom.xml` of `brokenWorld` comes back as it
is. -/
theorem read_error_is_returned_unchanged_witness :
    brokenWorld.Stat "pom.xml" = some false
      ∧ brokenWorld.ReadXML (if false then brokenWorld.Join "pom.xml" "pom.xml" else "pom.xml")
        = .error (.foreign "XML syntax error on line 1: unexpected EOF")
      ∧ (ResolveManifestFromBuildTarget brokenWorld "pom.xml").1
        = .error (.foreign "XML syntax error on line 1: unexpected EOF")
      ∧ (ResolveManifestFromBuildTarget brokenWorld "pom.xml").2
        = [.Stat "pom.xml",
            .ReadXML (if false then brokenWorld.Join "pom.xml" "pom.xml" else "pom.xml")]
      ∧ (GraphFromTarget keyOf brokenWorld "pom.xml").1
        = (Deps.zero PkgID, some (.foreign "XML syntax error on line 1: unexpected EOF")) :=
  ⟨by decide, rfl,
    read_error_is_returned_unchanged keyOf brokenWorld "pom.xml" false
      (.foreign "XML syntax error on line 1: unexpected EOF") (by decide) rfl⟩

/-- Failure and success of `GraphFromTarget` on the module identifier `com.a:x`,
where the resolver fails, and on the directory `proj`, where it succeeds. -/
theorem graph_fails_iff_resolver_fails_witness :
    ((ResolveManifestFromBuildTarget (projWorld sampleDeps) "com.a:x").1
        = .error (.Errorf "cannot identify POM file for module %q" "com.a:x")
      ∧ (GraphFromTarget keyOf (projWorld sampleDeps) "com.a:x").1.2
          = some (.Errorf "cannot identify POM file for module %q" "com.a:x")
      ∧ (GraphFromTarget keyOf (projWorld sampleDeps) "com.a:x").1.1.Direct = none
      ∧ (GraphFromTarget keyOf (projWorld sampleDeps) "com.a:x").1.1.Transitive = none)
    ∧ ((ResolveManifestFromBuildTarget (projWorld sampleDeps) "proj").1
        = .ok (mkPom sampleDeps)
      ∧ (GraphFromTarget keyOf (projWorld sampleDeps) "proj").1.2 = none
      ∧ (GraphFromTarget keyOf (projWorld sampleDeps) "proj").1.1.Transitive ≠ none) :=
  ⟨⟨rfl, (graph_fails_iff_resolver_fails keyOf (projWorld sampleDeps) "com.a:x").2.1
      (.Errorf "cannot identify POM file for module %q" "com.a:x") rfl⟩,
    ⟨rfl, (graph_fails_iff_resolver_fails keyOf (projWorld sampleDeps) "proj").2.2.1
      (mkPom sampleDeps) rfl⟩⟩

/-- Two declarations of `com.a:x` have one `ID()`, and the directory `proj`,
whose manifest declares `sampleDeps`, gives three declarations, two distinct
coordinates and two map entries. -/
theorem ID_identifies_pair_without_colon_witness :
    (Count (mkDep "com.a" "x" "1.0" "").GroupId ':' = 0
      ∧ Count (mkDep "com.a" "x" "2.0" "test").GroupId ':' = 0
      ∧ (mkDep "com.a" "x" "1.0" "").ID = (mkDep "com.a" "x" "2.0" "test").ID
      ∧ (mkDep "com.a" "x" "1.0" "").GroupId = (mkDep "com.a" "x" "2.0" "test").GroupId
      ∧ (mkDep "com.a" "x" "1.0" "").ArtifactId
          = (mkDep "com.a" "x" "2.0" "test").ArtifactId)
    ∧ ((ResolveManifestFromBuildTarget (projWorld sampleDeps) "proj").1
        = .ok (mkPom sampleDeps)
      ∧ (∀ d ∈ (mkPom sampleDeps).Dependencies, Count d.GroupId ':' = 0)
      ∧ ∃ m : PkgMap,
          (GraphFromTarget keyOf (projWorld sampleDeps) "proj").1.1.Transitive = some m
          ∧ m.length = (((mkPom sampleDeps).Dependencies.map coordinate).dedup).length) :=
  ⟨⟨by decide, by decide, by decide,
      ID_identifies_pair_without_colon.1 (mkDep "com.a" "x" "1.0" "")
        (mkDep "com.a" "x" "2.0" "test") (by decide) (by decide) (by decide)⟩,
    ⟨rfl, by decide,
      ID_identifies_pair_without_colon.2 PkgID keyOf (projWorld sampleDeps) "proj"
        (mkPom sampleDeps) rfl (by decide)⟩⟩

end Maven
